import Mathlib

/-!
Shallow embedding of the governance-gated adjustment and serving pipeline of
the eb-examples demo scripts (govern_demo_eb_golden_v1.py,
ral_demo_eb_golden_v1.py, serve_demo_eb_golden_v1.py).

Conventions of the embedding:
- pandas tables become Lists of structures; a nullable cell becomes an Option;
- Python floats become ℚ (exact rationals); the `:.6f` format string becomes
  an explicit round-to-six-decimals formatter (`fmt6`);
- functions that raise become Except-valued functions;
- Python's substring test (`tok in s`) and `s.split(sep, 1)` are modelled by
  `hasSubS` and `splitOnceS` over the character lists of the strings.
The deduplicated RAL trace artifact and the file-system / CLI layers are pure
pass-through I/O and are not modelled.
-/

namespace EB

/-- Boolean test that the first list is an initial segment of the second. -/
def startsWithL : List Char → List Char → Bool
  | [], _ => true
  | _ :: _, [] => false
  | a :: t, b :: s => a = b && startsWithL t s

/-- Split a character list at the first occurrence of the pattern `t`,
returning the part before and the part after; `none` when `t` never occurs.
This models Python's `s.split(t, 1)` (two parts when the delimiter occurs). -/
def splitOnceL (t : List Char) : List Char → Option (List Char × List Char)
  | [] => if startsWithL t [] then some ([], []) else none
  | a :: rest =>
    if startsWithL t (a :: rest) then some ([], (a :: rest).drop t.length)
    else
      match splitOnceL t rest with
      | some (p, r) => some (a :: p, r)
      | none => none

/-- String version of `splitOnceL`. -/
def splitOnceS (t s : String) : Option (String × String) :=
  match splitOnceL t.data s.data with
  | some (p, r) => some (String.mk p, String.mk r)
  | none => none

/-- Boolean substring test, modelling Python's `t in s`. -/
def hasSubS (t s : String) : Bool :=
  (splitOnceL t.data s.data).isSome

theorem startsWithL_iff (t s : List Char) :
    startsWithL t s = true ↔ ∃ r, s = t ++ r := by
  induction t generalizing s with
  | nil => simp [startsWithL]
  | cons a t ih =>
    cases s with
    | nil =>
      simp [startsWithL]
    | cons b s =>
      simp only [startsWithL, Bool.and_eq_true, decide_eq_true_eq, ih,
        List.cons_append, List.cons.injEq]
      constructor
      · rintro ⟨rfl, r, rfl⟩; exact ⟨r, rfl, rfl⟩
      · rintro ⟨r, rfl, rfl⟩; exact ⟨rfl, r, rfl⟩

theorem splitOnceL_sound {t s p r : List Char}
    (h : splitOnceL t s = some (p, r)) : s = p ++ t ++ r := by
  induction s generalizing p r with
  | nil =>
    by_cases hs : startsWithL t [] = true
    · rcases (startsWithL_iff t []).1 hs with ⟨q, hq⟩
      rcases List.append_eq_nil.1 hq.symm with ⟨ht, hq0⟩
      simp only [splitOnceL, hs, if_true, Option.some.injEq, Prod.mk.injEq] at h
      simp [← h.1, ← h.2, ht]
    · simp [splitOnceL, hs] at h
  | cons a rest ih =>
    by_cases hs : startsWithL t (a :: rest) = true
    · rcases (startsWithL_iff t (a :: rest)).1 hs with ⟨q, hq⟩
      simp only [splitOnceL, hs, if_true, Option.some.injEq, Prod.mk.injEq] at h
      have hdrop : (a :: rest).drop t.length = q := by
        rw [hq, List.drop_left]
      rw [← h.1, ← h.2, List.nil_append, hdrop]
      exact hq
    · simp only [splitOnceL] at h
      rw [if_neg hs] at h
      cases hsplit : splitOnceL t rest with
      | none => rw [hsplit] at h; exact absurd h (by simp)
      | some pr =>
        rcases pr with ⟨p', r'⟩
        rw [hsplit] at h
        simp only [Option.some.injEq, Prod.mk.injEq] at h
        have := ih hsplit
        rw [← h.1, ← h.2, List.cons_append, List.cons_append, ← this]

theorem splitOnceL_complete {t s : List Char}
    (h : splitOnceL t s = none) : ∀ p r, s ≠ p ++ t ++ r := by
  induction s with
  | nil =>
    intro p r hpr
    rcases List.append_eq_nil.1 hpr.symm with ⟨hpt, hq0⟩
    rcases List.append_eq_nil.1 hpt with ⟨hp, ht⟩
    have hs : startsWithL t [] = true := by
      rw [ht]; simp [startsWithL]
    simp [splitOnceL, hs] at h
  | cons a rest ih =>
    intro p r hpr
    by_cases hs : startsWithL t (a :: rest) = true
    · simp [splitOnceL, hs] at h
    · simp only [splitOnceL] at h
      rw [if_neg hs] at h
      cases hsplit : splitOnceL t rest with
      | some pr' => rw [hsplit] at h; rcases pr' with ⟨x, y⟩; exact absurd h (by simp)
      | none =>
        cases p with
        | nil =>
          apply hs
          rw [startsWithL_iff]
          exact ⟨r, by simpa using hpr⟩
        | cons b p' =>
          have : rest = p' ++ t ++ r := by
            simpa using congrArg List.tail hpr
          exact ih hsplit p' r this

theorem hasSubS_iff (t s : String) :
    hasSubS t s = true ↔ ∃ p r, s.data = p ++ t.data ++ r := by
  unfold hasSubS
  cases h : splitOnceL t.data s.data with
  | none =>
    refine iff_of_false (by simp) ?_
    rintro ⟨p, r, hpr⟩
    exact splitOnceL_complete h p r hpr
  | some pr =>
    rcases pr with ⟨p, r⟩
    exact iff_of_true rfl ⟨p, r, splitOnceL_sound h⟩

/-! ## Entity key decomposition

Two decomposers exist in the source. `_parse_forecast_entity_id`
(ral_demo_eb_golden_v1.py and serve_demo_eb_golden_v1.py) raises a ValueError
when the delimiter `::` is absent. `fe_from_entity_id`
(govern_demo_eb_golden_v1.py, inside main) instead falls back to returning the
whole string unchanged. Both split on the first occurrence of `::`. -/

/-- Model of `_parse_forecast_entity_id` (ral/serve scripts): return the part
after the first `::`, or fail when the delimiter is absent. -/
def parseForecastEntityId (s : String) : Except String String :=
  match splitOnceS "::" s with
  | some pr => Except.ok pr.2
  | none =>
    Except.error ("Unexpected entity_id format: " ++ s ++
      " (expected site_id::forecast_entity_id)")

/-- Model of `fe_from_entity_id` (govern script): return the part after the
first `::`, or the whole string unchanged when the delimiter is absent. -/
def fe_from_entity_id (s : String) : String :=
  match splitOnceS "::" s with
  | some pr => pr.2
  | none => s

/-! ## Six-decimal formatting

The govern script records the threshold comparison with the Python format
string `f"HR@τ={v:.6f} vs threshold {m:.6f}"`. Over ℚ this rounds to six
decimal places (ties rounded up; the demo values are never within 5e-7 of a
tie so the tie-breaking convention is immaterial here). -/

/-- Total number of micro-units after rounding `q` to six decimal places:
`⌊q·10⁶ + 1/2⌋`, computed directly on the (reduced) numerator and denominator
so that the kernel can evaluate it:
`q·10⁶ + 1/2 = (2·num·10⁶ + den) / (2·den)` with `den > 0`. -/
def round6 (q : ℚ) : Int := (2 * q.num * 1000000 + q.den).fdiv (2 * q.den)

/-- Left-pad a natural number with zeros to six digits. -/
def pad6 (n : Nat) : String :=
  let s := toString n
  String.mk (List.replicate (6 - s.length) '0') ++ s

/-- Render a rational with six digits after the decimal point, modelling the
`:.6f` format specifier. -/
def fmt6 (q : ℚ) : String :=
  let n := round6 q
  let sign := if n < 0 then "-" else ""
  let m := n.natAbs
  sign ++ toString (m / 1000000) ++ "." ++ pad6 (m % 1000000)

/-! ## Admissibility Evaluator (govern_demo_eb_golden_v1.py) -/

/-- Whitespace recognizer for the model of Python's `str.strip()`. -/
def isWsp (c : Char) : Bool :=
  c = ' ' || c = '\t' || c = '\n' || c = '\r' || c = '\x0b' || c = '\x0c'

/-- ASCII upper-casing of one character (the demo's labels are ASCII). -/
def upChar (c : Char) : Char :=
  if 'a' ≤ c && c ≤ 'z' then Char.ofNat (c.toNat - 32) else c

/-- Strip leading and trailing whitespace, then upper-case: the model of
Python's `.strip().upper()`. -/
def stripUpper (s : String) : String :=
  String.mk ((((s.data.dropWhile isWsp).reverse.dropWhile isWsp).reverse).map upChar)

/-- Model of `_normalize_class`: an absent value becomes the empty string;
otherwise strip surrounding whitespace and upper-case. -/
def _normalize_class (x : Option String) : String :=
  match x with
  | none => ""
  | some s => stripUpper s

/-- The conservative blocklist `bad_tokens` of `_is_structurally_ok`. -/
def bad_tokens : List String :=
  ["BLOCK", "FAIL", "FAILED", "INCOMPATIBLE", "DENY", "NO"]

/-- A normalized label blocks when it is non-empty and contains one of the
blocklist words as a substring (Python's `tok in dqc_class`). -/
def labelBlocksB (c : String) : Bool :=
  (!(c = "")) && bad_tokens.any (fun tok => hasSubS tok c)

/-- Model of `_is_structurally_ok`: the input row dictionaries are reduced to
their resolved classification cells (an absent cell, or a column that the
alias resolution `_pick_col` failed to find, is `none`). Returns the pass/fail
flag and the ordered reasons. -/
def _is_structurally_ok (dqcCell fpcCell : Option String) : Bool × List String :=
  let dqc_class := _normalize_class dqcCell
  let fpc_class := _normalize_class fpcCell
  let dqcBad := labelBlocksB dqc_class
  let fpcBad := labelBlocksB fpc_class
  let ok := !dqcBad && !fpcBad
  let reasons :=
    (if dqcBad then ["DQC not admissible: " ++ dqc_class] else []) ++
    (if fpcBad then ["FPC not compatible: " ++ fpc_class] else []) ++
    (if dqc_class = "" then ["DQC class not found in artifact (proceeding conservatively)."] else []) ++
    (if fpc_class = "" then ["FPC class not found in artifact (proceeding conservatively)."] else [])
  (ok, reasons)

/-! ## Threshold Evaluator (govern_demo_eb_golden_v1.py, main loop) -/

/-- Model of `metric_ok = (hr_val_f is not None) and (hr_val_f >= hr_tau_min)`. -/
def thresholdOk (hrVal : Option ℚ) (hrMin : ℚ) : Bool :=
  match hrVal with
  | some v => decide (v ≥ hrMin)
  | none => false

/-- The reason string the main loop appends for the threshold check. -/
def thresholdReason (hrVal : Option ℚ) (hrMin : ℚ) : String :=
  match hrVal with
  | none => "Missing HR@τ; adjustment not permitted under conservative policy."
  | some v => "HR@τ=" ++ fmt6 v ++ " vs threshold " ++ fmt6 hrMin

/-! ## Governance Decision Engine (govern_demo_eb_golden_v1.py, main loop) -/

/-- Model of `DemoGovernancePolicyV1`. `allowed_ral_modes_if_permitted` is kept
as a list (the script serializes it to a JSON array string in the output). -/
structure DemoGovernancePolicyV1 where
  version : String := "v1"
  hr_tau : ℚ := 2
  hr_tau_min : ℚ := 7/10
  allow_fallback_default : Bool := false
  allowed_ral_modes_if_permitted : List String := ["identity"]
deriving Repr, DecidableEq

/-- The default policy instance used by the script. -/
def demoPolicy : DemoGovernancePolicyV1 := {}

/-- One output row of the governance decision table (the dict appended to
`out_rows` in the main loop). Numeric cells and classification cells are
nullable. -/
structure GovRow where
  forecast_entity_id : String
  allow_adjustment : Bool
  allow_fallback : Bool
  allowed_ral_modes : List String
  policy_version : String
  hr_tau : Option ℚ
  cwsl : Option ℚ
  nsl : Option ℚ
  ud : Option ℚ
  dqc_class : Option String
  fpc_class : Option String
  fas_class : Option String
  reasons : List String
deriving Repr, DecidableEq

/-- The structural-prerequisite step of the main loop: a wholly missing DQC or
FPC row (the `dqc_row.empty or fpc_row.empty` branch) fails immediately with a
reason naming the missing row; otherwise defer to `_is_structurally_ok` on the
present rows. `dqcRow`/`fpcRow` are `none` when the diagnostic row is missing,
and `some cell` when the row is present with resolved classification `cell`. -/
def structuralCheck (dqcRow fpcRow : Option (Option String)) : Bool × List String :=
  match dqcRow, fpcRow with
  | some d, some f => _is_structurally_ok d f
  | _, _ =>
    (false,
      (if dqcRow.isNone then ["Missing DQC row for this forecast_entity_id."] else []) ++
      (if fpcRow.isNone then ["Missing FPC row for this forecast_entity_id."] else []))

/-- The terminal summary reason. -/
def summaryReason (allow : Bool) : String :=
  if allow then "Adjustment permitted (structural OK and HR threshold met)."
  else "Adjustment NOT permitted (conservative policy)."

/-- Model of one iteration of the main loop of the govern script: build the
governance decision row for one entity-scope key. The function is total (the
loop raises no error for missing rows or missing metrics). -/
def govDecide (policy : DemoGovernancePolicyV1) (hrMin : ℚ) (allowFallback : Bool)
    (fe_id : String) (dqcRow fpcRow : Option (Option String))
    (hrVal cwslVal nslVal udVal : Option ℚ) (fasClass : Option String) : GovRow :=
  let structural := structuralCheck dqcRow fpcRow
  let metric_ok := thresholdOk hrVal hrMin
  let allow := structural.1 && metric_ok
  { forecast_entity_id := fe_id
    allow_adjustment := allow
    allow_fallback := allowFallback
    allowed_ral_modes := policy.allowed_ral_modes_if_permitted
    policy_version := policy.version
    hr_tau := hrVal
    cwsl := cwslVal
    nsl := nslVal
    ud := udVal
    dqc_class := dqcRow.join
    fpc_class := fpcRow.join
    fas_class := fasClass
    reasons := structural.2 ++ [thresholdReason hrVal hrMin] ++ [summaryReason allow] }

/-! ## Diagnostic Aggregator (govern_demo_eb_golden_v1.py, main)

The metric tables cwsl / hr_tau / nsl_ud are keyed by the composite
`entity_id` (`site::forecast_entity_id`); the structural tables dqc / fpc /
fas are keyed by `forecast_entity_id`. The script inner-joins the three
metric tables on `entity_id`, aggregates to `forecast_entity_id` by mean
(`groupby(...).mean()`), and then left-joins the structural tables. -/

/-- Row of the cwsl metric artifact (after the value-column alias
resolution). -/
structure CwslRow where
  entity_id : String
  cwsl : ℚ
deriving Repr, DecidableEq

/-- Row of the hr_tau metric artifact. -/
structure HrRow where
  entity_id : String
  hr_tau : ℚ
deriving Repr, DecidableEq

/-- Row of the nsl_ud metric artifact. -/
structure NslUdRow where
  entity_id : String
  nsl : ℚ
  ud : ℚ
deriving Repr, DecidableEq

/-- Row of a structural diagnostic artifact (dqc / fpc / fas), reduced to its
key and its resolved classification cell. -/
structure DiagRow where
  forecast_entity_id : String
  class_cell : Option String
deriving Repr, DecidableEq

/-- Row of the inner-joined metric table `m`, after the
`forecast_entity_id` column is attached via `fe_from_entity_id`. -/
structure MRow where
  entity_id : String
  cwsl : ℚ
  hr_tau : ℚ
  nsl : ℚ
  ud : ℚ
  forecast_entity_id : String
deriving Repr, DecidableEq

/-- Row of the aggregated metric table `m_agg` (one row per distinct
`forecast_entity_id`, metrics averaged across sites). -/
structure AggRow where
  forecast_entity_id : String
  cwsl : ℚ
  hr_tau : ℚ
  nsl : ℚ
  ud : ℚ
deriving Repr, DecidableEq

/-- The pandas inner merge
`cwsl.merge(hr, on="entity_id").merge(nslud, on="entity_id")` followed by
`m["forecast_entity_id"] = m["entity_id"].map(fe_from_entity_id)`: left row
order, all matching right rows per left row. -/
def mTable (cwsl : List CwslRow) (hr : List HrRow) (nslud : List NslUdRow) : List MRow :=
  cwsl.flatMap fun c =>
    (hr.filter fun h => h.entity_id = c.entity_id).flatMap fun h =>
      (nslud.filter fun n => n.entity_id = c.entity_id).map fun n =>
        { entity_id := c.entity_id
          cwsl := c.cwsl
          hr_tau := h.hr_tau
          nsl := n.nsl
          ud := n.ud
          forecast_entity_id := fe_from_entity_id c.entity_id }

/-- Arithmetic mean of a list of rationals (0 for the empty list; groups are
never empty). -/
def meanQ (l : List ℚ) : ℚ := l.sum / l.length

/-- First-seen-order deduplication of keys. -/
def dedupKeys (l : List String) : List String :=
  (l.foldl (fun acc k => if acc.contains k then acc else k :: acc) []).reverse

/-- Boolean comparison of strings by their character lists (Unicode code
point order), used to model the ascending groupby/sort order. -/
def strLeb (a b : String) : Bool :=
  let rec go : List Char → List Char → Bool
    | [], _ => true
    | _ :: _, [] => false
    | x :: xs, y :: ys =>
      if x = y then go xs ys else decide (x < y)
  go a.data b.data

/-- Insertion sort by a boolean comparison. -/
def insertBy (leb : α → α → Bool) (x : α) : List α → List α
  | [] => [x]
  | a :: t => if leb x a then x :: a :: t else a :: insertBy leb x t

/-- Insertion sort (stable for the claims proved here, which only use
membership and length). -/
def sortBy (leb : α → α → Bool) (l : List α) : List α :=
  l.foldr (insertBy leb) []

/-- The pandas `m.groupby("forecast_entity_id", as_index=False).mean()`: one
row per distinct key, keys ascending, each metric averaged over the group. -/
def aggTable (m : List MRow) : List AggRow :=
  (sortBy strLeb (dedupKeys (m.map fun r => r.forecast_entity_id))).map fun k =>
    let g := m.filter fun r => r.forecast_entity_id = k
    { forecast_entity_id := k
      cwsl := meanQ (g.map fun r => r.cwsl)
      hr_tau := meanQ (g.map fun r => r.hr_tau)
      nsl := meanQ (g.map fun r => r.nsl)
      ud := meanQ (g.map fun r => r.ud) }

/-- A pandas left merge on a string key: each left row is paired with every
matching right row, or with `none` when no right row matches. -/
def leftJoin (left : List α) (right : List β) (kl : α → String) (kr : β → String) :
    List (α × Option β) :=
  left.flatMap fun a =>
    match right.filter fun b => kr b = kl a with
    | [] => [(a, none)]
    | bs => bs.map fun b => (a, some b)

/-- The merged governance context: `m_agg` left-joined with the dqc, fpc and
fas structural tables on `forecast_entity_id`. -/
def govMergedTable (cwsl : List CwslRow) (hr : List HrRow) (nslud : List NslUdRow)
    (dqc fpc fas : List DiagRow) : List (((AggRow × Option DiagRow) × Option DiagRow) × Option DiagRow) :=
  leftJoin
    (leftJoin
      (leftJoin (aggTable (mTable cwsl hr nslud)) dqc
        (fun a => a.forecast_entity_id) (fun d => d.forecast_entity_id))
      fpc (fun p => p.1.forecast_entity_id) (fun d => d.forecast_entity_id))
    fas (fun p => p.1.1.forecast_entity_id) (fun d => d.forecast_entity_id)

/-! ## Adjustment Applicator (ral_demo_eb_golden_v1.py) -/

/-- Row of the baseline forecast panel (the columns the ral/serve scripts
require; extra pass-through columns are immaterial and omitted). The interval
timestamp is abstracted to a Nat tick. -/
structure FcstRow where
  entity_id : String
  interval_start : Nat
  y_pred : ℚ
deriving Repr, DecidableEq

/-- Row of the RAL output table: the forecast row plus the columns the script
assigns (`forecast_entity_id`, `allow_adjustment`, `y_pred_ral`,
`ral_applied`, `ral_mode`). `y_pred_ral` is a plain value: the script assigns
`out["y_pred_ral"] = out["y_pred"]` for every row. -/
structure RalRow where
  entity_id : String
  interval_start : Nat
  y_pred : ℚ
  forecast_entity_id : String
  allow_adjustment : Bool
  y_pred_ral : ℚ
  ral_applied : Bool
  ral_mode : String
deriving Repr, DecidableEq

/-- The governance permission map `gov_map` / `allow_map`
(`set_index("forecast_entity_id")["allow_adjustment"]`, one row per
entity-scope in the governance artifact); a missing key defaults to `false`. -/
def govLookup (gov : List (String × Bool)) (k : String) : Bool :=
  match gov.find? fun p => p.1 = k with
  | some p => p.2
  | none => false

/-- Error-propagating map over a list (the pandas `Series.map` of a raising
function: the first raising row aborts the run). -/
def mapE (f : α → Except String β) : List α → Except String (List β)
  | [] => Except.ok []
  | a :: t =>
    match f a with
    | Except.error e => Except.error e
    | Except.ok b =>
      match mapE f t with
      | Except.error e => Except.error e
      | Except.ok bs => Except.ok (b :: bs)

/-- The column assignments of the RAL script for one row, given the parsed
entity-scope `fe` and the looked-up permission `allow`: keep `y_pred`
unchanged as `y_pred_ral` (identity RAL) and record `ral_applied` /
`ral_mode`. -/
def ralRowPure (allow : Bool) (fe : String) (b : FcstRow) : RalRow :=
  { entity_id := b.entity_id
    interval_start := b.interval_start
    y_pred := b.y_pred
    forecast_entity_id := fe
    allow_adjustment := allow
    y_pred_ral := b.y_pred
    ral_applied := allow
    ral_mode := if allow then "identity" else "none" }

/-- One row of the RAL computation: parse the composite key (raising on a
malformed key), look up permission (missing entity-scope defaults to false),
then assign the output columns. -/
def ralRowOf (gov : List (String × Bool)) (b : FcstRow) : Except String RalRow :=
  match parseForecastEntityId b.entity_id with
  | Except.error e => Except.error e
  | Except.ok fe => Except.ok (ralRowPure (govLookup gov fe) fe b)

/-- Model of the main body of ral_demo_eb_golden_v1.py: the per-row output
table (the deduplicated trace artifact is not modelled; no claim concerns
it). -/
def ralApply (gov : List (String × Bool)) (fcst : List FcstRow) :
    Except String (List RalRow) :=
  mapE (ralRowOf gov) fcst

/-! ## Serving Selector (serve_demo_eb_golden_v1.py) -/

/-- Row of the served forecast artifact, with the trace columns the script
keeps. After the left merge the RAL columns are nullable (`NaN` when the RAL
table has no matching row). -/
structure ServedRow where
  entity_id : String
  forecast_entity_id : String
  interval_start : Nat
  y_served : ℚ
  served_source : String
  y_pred : ℚ
  y_pred_ral : Option ℚ
  ral_mode : Option String
  ral_applied : Option Bool
  allow_adjustment : Bool
deriving Repr, DecidableEq

/-- Key-uniqueness check backing the pandas `validate="one_to_one"` merge
option. -/
def dupFree [DecidableEq κ] : List κ → Bool
  | [] => true
  | a :: t => !t.contains a && dupFree t

/-- The column assignments of the serving script for one row, given the
parsed entity-scope `fe`, the looked-up permission `allow` and the (unique,
by `validate`) matching RAL row `m` of the left merge: RAL is served only
when permitted AND the adjusted value is present (`use_ral`); `served_source`
records which branch fired; the trace columns are kept. -/
def serveRowPure (allow : Bool) (fe : String) (b : FcstRow) (m : Option RalRow) : ServedRow :=
  let use_ral := allow && (m.map fun r => r.y_pred_ral).isSome
  { entity_id := b.entity_id
    forecast_entity_id := fe
    interval_start := b.interval_start
    y_served := if use_ral then ((m.map fun r => r.y_pred_ral).getD b.y_pred) else b.y_pred
    served_source := if use_ral then "ral" else "baseline"
    y_pred := b.y_pred
    y_pred_ral := m.map fun r => r.y_pred_ral
    ral_mode := m.map fun r => r.ral_mode
    ral_applied := m.map fun r => r.ral_applied
    allow_adjustment := allow }

/-- One output row of the serving selector for baseline row `b`: the left
merge picks the matching RAL row when there is one; the composite key is
parsed (raising on a malformed key); permission is looked up with a closed
default; then the output columns are assigned. -/
def serveRowOf (gov : List (String × Bool)) (ral : List RalRow) (b : FcstRow) :
    Except String ServedRow :=
  let m := (ral.filter fun r =>
    r.entity_id = b.entity_id && r.interval_start = b.interval_start).head?
  match parseForecastEntityId b.entity_id with
  | Except.error e => Except.error e
  | Except.ok fe => Except.ok (serveRowPure (govLookup gov fe) fe b m)

/-- Comparison for the final `sort_values(by=["entity_id", "interval_start"])`. -/
def servedLeb (a b : ServedRow) : Bool :=
  if a.entity_id = b.entity_id then decide (a.interval_start ≤ b.interval_start)
  else strLeb a.entity_id b.entity_id

/-- Model of the main body of serve_demo_eb_golden_v1.py: validate the
one-to-one merge cardinality on both sides (a duplicate composite key in
either table is a fatal ValidationError), then build one served row per
baseline row and sort by key. -/
def serve (gov : List (String × Bool)) (base : List FcstRow) (ral : List RalRow) :
    Except String (List ServedRow) :=
  if !dupFree (base.map fun b => (b.entity_id, b.interval_start)) then
    Except.error "ValidationError: merge keys are not unique in the baseline table"
  else if !dupFree (ral.map fun r => (r.entity_id, r.interval_start)) then
    Except.error "ValidationError: merge keys are not unique in the ral table"
  else
    match mapE (serveRowOf gov ral) base with
    | Except.error e => Except.error e
    | Except.ok rows => Except.ok (sortBy servedLeb rows)

/-! ## Helper lemmas -/

theorem mapE_ok_mem {f : α → Except String β} {l : List α} {out : List β}
    (h : mapE f l = Except.ok out) : ∀ y ∈ out, ∃ x ∈ l, f x = Except.ok y := by
  induction l generalizing out with
  | nil =>
    simp only [mapE, Except.ok.injEq] at h
    subst h
    intro y hy
    exact absurd hy (List.not_mem_nil y)
  | cons a t ih =>
    simp only [mapE] at h
    cases hfa : f a with
    | error e => rw [hfa] at h; exact absurd h (by simp)
    | ok b =>
      rw [hfa] at h
      cases hmt : mapE f t with
      | error e => rw [hmt] at h; exact absurd h (by simp)
      | ok bs =>
        rw [hmt] at h
        simp only [Except.ok.injEq] at h
        subst h
        intro y hy
        rcases List.mem_cons.1 hy with hyb | hybs
        · exact ⟨a, List.mem_cons_self a t, by rw [hfa, hyb]⟩
        · rcases ih hmt y hybs with ⟨x, hx, hfx⟩
          exact ⟨x, List.mem_cons_of_mem a hx, hfx⟩

theorem mapE_ok_forward {f : α → Except String β} {l : List α} {out : List β}
    (h : mapE f l = Except.ok out) : ∀ x ∈ l, ∃ y ∈ out, f x = Except.ok y := by
  induction l generalizing out with
  | nil =>
    intro x hx
    exact absurd hx (List.not_mem_nil x)
  | cons a t ih =>
    simp only [mapE] at h
    cases hfa : f a with
    | error e => rw [hfa] at h; exact absurd h (by simp)
    | ok b =>
      rw [hfa] at h
      cases hmt : mapE f t with
      | error e => rw [hmt] at h; exact absurd h (by simp)
      | ok bs =>
        rw [hmt] at h
        simp only [Except.ok.injEq] at h
        subst h
        intro x hx
        rcases List.mem_cons.1 hx with hxa | hxt
        · exact ⟨b, List.mem_cons_self b bs, by rw [hxa, hfa]⟩
        · rcases ih hmt x hxt with ⟨y, hy, hfy⟩
          exact ⟨y, List.mem_cons_of_mem b hy, hfy⟩

theorem mem_insertBy {leb : α → α → Bool} {x y : α} {l : List α} :
    y ∈ insertBy leb x l ↔ y = x ∨ y ∈ l := by
  induction l with
  | nil => simp [insertBy]
  | cons a t ih =>
    by_cases h : leb x a = true
    · simp only [insertBy, h, if_true, List.mem_cons]
    · simp only [insertBy, h, Bool.false_eq_true, if_false, List.mem_cons, ih]
      tauto

theorem mem_sortBy {leb : α → α → Bool} {y : α} {l : List α} :
    y ∈ sortBy leb l ↔ y ∈ l := by
  induction l with
  | nil => simp [sortBy]
  | cons a t ih =>
    simp only [sortBy, List.foldr_cons, List.mem_cons]
    rw [mem_insertBy]
    simp only [sortBy] at ih
    rw [ih]

theorem leftJoin_length_ge (left : List α) (right : List β) (kl : α → String)
    (kr : β → String) : left.length ≤ (leftJoin left right kl kr).length := by
  induction left with
  | nil => simp [leftJoin]
  | cons a t ih =>
    simp only [leftJoin, List.flatMap_cons, List.length_append, List.length_cons]
    have h1 : 1 ≤ (match right.filter fun b => kr b = kl a with
        | [] => [(a, (none : Option β))]
        | bs => bs.map fun b => (a, some b)).length := by
      cases hf : right.filter fun b => kr b = kl a with
      | nil => simp
      | cons b bs => simp
    simp only [leftJoin] at ih
    omega

theorem leftJoin_preserves (left : List α) (right : List β) (kl : α → String)
    (kr : β → String) : ∀ a ∈ left, ∃ ob, (a, ob) ∈ leftJoin left right kl kr := by
  intro a ha
  cases hf : right.filter fun b => kr b = kl a with
  | nil =>
    refine ⟨none, ?_⟩
    simp only [leftJoin, List.mem_flatMap]
    exact ⟨a, ha, by rw [hf]; exact List.mem_singleton.2 rfl⟩
  | cons b bs =>
    refine ⟨some b, ?_⟩
    simp only [leftJoin, List.mem_flatMap]
    refine ⟨a, ha, ?_⟩
    rw [hf]
    exact List.mem_map.2 ⟨b, List.mem_cons_self b bs, rfl⟩

/-- The spec-side reading of a blocking label: the normalized label is
non-empty and one of the blocklist words occurs in it as a contiguous
substring. -/
def LabelBlocks (c : String) : Prop :=
  c ≠ "" ∧ ∃ t ∈ bad_tokens, ∃ p r : List Char, c.data = p ++ t.data ++ r

theorem labelBlocksB_iff (c : String) : labelBlocksB c = true ↔ LabelBlocks c := by
  unfold labelBlocksB LabelBlocks
  rw [Bool.and_eq_true, List.any_eq_true]
  constructor
  · rintro ⟨h1, t, ht, h2⟩
    exact ⟨by simpa using h1, t, ht, (hasSubS_iff t c).1 h2⟩
  · rintro ⟨h1, t, ht, h2⟩
    exact ⟨by simpa using h1, t, ht, (hasSubS_iff t c).2 h2⟩

/-! ## Claim theorems -/

/-- C4: the Admissibility Evaluator normalizes each classification label by
trimming whitespace and upper-casing, and returns `ok = false` exactly when at
least one normalized label is non-empty and contains one of the substrings
BLOCK, FAIL, FAILED, INCOMPATIBLE, DENY, NO (substring match); absent or empty
labels never block. Scenario: "OK", "ok", "", and absent all pass;
"blocked", "INCOMPATIBLE_TYPE" and "not_block_worthy" all fail. -/
theorem admissibility_token_rule :
    (∀ d f : Option String,
      (_is_structurally_ok d f).1 = false ↔
        (LabelBlocks (_normalize_class d) ∨ LabelBlocks (_normalize_class f))) ∧
    (_is_structurally_ok (some "OK") (some "OK")).1 = true ∧
    (_is_structurally_ok (some "ok") (some "ok")).1 = true ∧
    (_is_structurally_ok (some "") (some "")).1 = true ∧
    (_is_structurally_ok none none).1 = true ∧
    (_is_structurally_ok (some "blocked") (some "OK")).1 = false ∧
    (_is_structurally_ok (some "INCOMPATIBLE_TYPE") (some "OK")).1 = false ∧
    (_is_structurally_ok (some "not_block_worthy") (some "OK")).1 = false := by
  refine ⟨?_, by decide, by decide, by decide, by decide, by decide, by decide, by decide⟩
  intro d f
  rw [← labelBlocksB_iff, ← labelBlocksB_iff]
  show (!labelBlocksB (_normalize_class d) && !labelBlocksB (_normalize_class f)) = false ↔ _
  cases labelBlocksB (_normalize_class d) <;> cases labelBlocksB (_normalize_class f) <;> simp

/-- C3: for every evaluated entity-scope key, `allow_adjustment` is exactly
the conjunction of the structural admissibility result and the threshold
result. Scenario: structural pass with hit-rate 0.75 against minimum 0.70
permits adjustment; structural pass with 0.65 denies it with a reason citing
0.65 vs 0.70. -/
theorem governance_allow_is_conjunction :
    (∀ (policy : DemoGovernancePolicyV1) (hrMin : ℚ) (fb : Bool) (fe : String)
        (dRow fRow : Option (Option String)) (hr cw ns ud : Option ℚ) (fc : Option String),
      (govDecide policy hrMin fb fe dRow fRow hr cw ns ud fc).allow_adjustment
        = ((structuralCheck dRow fRow).1 && thresholdOk hr hrMin)) ∧
    (govDecide demoPolicy (Rat.divInt 7 10) false "A" (some (some "OK")) (some (some "OK"))
      (some (Rat.divInt 3 4)) none none none none).allow_adjustment = true ∧
    (govDecide demoPolicy (Rat.divInt 7 10) false "B" (some (some "OK")) (some (some "OK"))
      (some (Rat.divInt 13 20)) none none none none).allow_adjustment = false ∧
    "HR@τ=0.650000 vs threshold 0.700000" ∈
      (govDecide demoPolicy (Rat.divInt 7 10) false "B" (some (some "OK")) (some (some "OK"))
        (some (Rat.divInt 13 20)) none none none none).reasons := by
  exact ⟨fun _ _ _ _ _ _ _ _ _ _ _ => rfl, by decide, by decide, by decide⟩

/-- C5 (amended): the Threshold Evaluator returns ok exactly when the metric
is present and at or above the minimum (inclusive; any value strictly below
fails); an absent metric yields the missing-metric reason; when the metric is
present, the value-vs-threshold comparison is recorded in the decision's
reasons — formatted to six decimal places rather than to full precision. -/
theorem threshold_rule :
    (∀ v m : ℚ, thresholdOk (some v) m = true ↔ m ≤ v) ∧
    (∀ m : ℚ, thresholdOk none m = false) ∧
    (∀ m : ℚ, thresholdReason none m
      = "Missing HR@τ; adjustment not permitted under conservative policy.") ∧
    (∀ v m : ℚ, thresholdReason (some v) m = "HR@τ=" ++ fmt6 v ++ " vs threshold " ++ fmt6 m) ∧
    (∀ (policy : DemoGovernancePolicyV1) (hrMin : ℚ) (fb : Bool) (fe : String)
        (dRow fRow : Option (Option String)) (hr cw ns ud : Option ℚ) (fc : Option String),
      thresholdReason hr hrMin ∈ (govDecide policy hrMin fb fe dRow fRow hr cw ns ud fc).reasons) ∧
    thresholdOk (some (Rat.divInt 7 10)) (Rat.divInt 7 10) = true ∧
    thresholdOk (some (Rat.divInt 6999999 10000000)) (Rat.divInt 7 10) = false := by
  refine ⟨fun v m => by simp [thresholdOk], fun m => rfl, fun m => rfl, fun v m => rfl,
    ?_, by decide, by decide⟩
  intro policy hrMin fb fe dRow fRow hr cw ns ud fc
  show thresholdReason hr hrMin ∈
    (structuralCheck dRow fRow).2 ++ [thresholdReason hr hrMin] ++ [summaryReason _]
  exact List.mem_append.2 (Or.inl (List.mem_append.2 (Or.inr (List.mem_singleton.2 rfl))))

/-- C5 counterexample: the recorded comparison is not "to full precision" —
two distinct present metric values (differing by 1e-7) produce byte-identical
reason trails under the same threshold. -/
theorem threshold_reason_precision_counterexample :
    (govDecide demoPolicy (Rat.divInt 7 10) false "E" (some none) (some none)
      (some (Rat.divInt 7000001 10000000)) none none none none).reasons
    = (govDecide demoPolicy (Rat.divInt 7 10) false "E" (some none) (some none)
      (some (Rat.divInt 7000002 10000000)) none none none none).reasons
    ∧ Rat.divInt 7000001 10000000 ≠ Rat.divInt 7000002 10000000 := by
  exact ⟨by decide, by decide⟩

/-- C6: a wholly missing DQC or FPC diagnostic row is not an error — the
decision is computed (the decision function is total), `allow_adjustment` is
false, and the reason trail names the missing row(s). -/
theorem missing_diag_row_closed_world :
    ∀ (policy : DemoGovernancePolicyV1) (hrMin : ℚ) (fb : Bool) (fe : String)
      (dRow fRow : Option (Option String)) (hr cw ns ud : Option ℚ) (fc : Option String),
      dRow = none ∨ fRow = none →
      (govDecide policy hrMin fb fe dRow fRow hr cw ns ud fc).allow_adjustment = false ∧
      (dRow = none → "Missing DQC row for this forecast_entity_id."
        ∈ (govDecide policy hrMin fb fe dRow fRow hr cw ns ud fc).reasons) ∧
      (fRow = none → "Missing FPC row for this forecast_entity_id."
        ∈ (govDecide policy hrMin fb fe dRow fRow hr cw ns ud fc).reasons) := by
  intro policy hrMin fb fe dRow fRow hr cw ns ud fc h
  rcases h with rfl | rfl
  · cases fRow <;>
      simp [govDecide, structuralCheck, List.mem_append]
  · cases dRow with
    | none => simp [govDecide, structuralCheck, List.mem_append]
    | some d =>
      refine ⟨?_, ?_, ?_⟩
      · show ((structuralCheck (some d) none).1 && thresholdOk hr hrMin) = false
        simp [structuralCheck]
      · intro hcon
        exact absurd hcon (by simp)
      · intro _
        show "Missing FPC row for this forecast_entity_id." ∈
          (structuralCheck (some d) none).2 ++ [thresholdReason hr hrMin] ++ [summaryReason _]
        simp [structuralCheck]

/-- Witness for C6 at a concrete input: DQC row missing, FPC row present. -/
theorem missing_diag_row_closed_world_witness :
    (govDecide demoPolicy (Rat.divInt 7 10) false "E" none (some (some "OK"))
      (some 1) none none none none).allow_adjustment = false ∧
    "Missing DQC row for this forecast_entity_id."
      ∈ (govDecide demoPolicy (Rat.divInt 7 10) false "E" none (some (some "OK"))
        (some 1) none none none none).reasons := by
  have h := missing_diag_row_closed_world demoPolicy (Rat.divInt 7 10) false "E"
    none (some (some "OK")) (some 1) none none none none (Or.inl rfl)
  exact ⟨h.1, h.2.1 rfl⟩

/-- C9 (amended): every governance decision row embeds the policy version,
the allowed adjustment modes, the fallback flag, and the full reason trail
ordered structural reasons, then the threshold reason, then the terminal
summary; the threshold value itself is NOT embedded as a per-decision field
(it appears only inside the threshold reason when the metric is present, and
in the separately-written policy document). -/
theorem decision_snapshot_reason_order :
    ∀ (policy : DemoGovernancePolicyV1) (hrMin : ℚ) (fb : Bool) (fe : String)
      (dRow fRow : Option (Option String)) (hr cw ns ud : Option ℚ) (fc : Option String),
      (govDecide policy hrMin fb fe dRow fRow hr cw ns ud fc).policy_version = policy.version ∧
      (govDecide policy hrMin fb fe dRow fRow hr cw ns ud fc).allowed_ral_modes
        = policy.allowed_ral_modes_if_permitted ∧
      (govDecide policy hrMin fb fe dRow fRow hr cw ns ud fc).allow_fallback = fb ∧
      (govDecide policy hrMin fb fe dRow fRow hr cw ns ud fc).reasons
        = (structuralCheck dRow fRow).2 ++ [thresholdReason hr hrMin]
          ++ [summaryReason ((structuralCheck dRow fRow).1 && thresholdOk hr hrMin)] := by
  exact fun _ _ _ _ _ _ _ _ _ _ _ => ⟨rfl, rfl, rfl, rfl⟩

/-- C9 counterexample: the threshold value used is not recoverable from the
decision row — two runs differing only in the threshold (0.70 vs 0.80)
produce byte-identical decision rows for an entity whose metric is absent. -/
theorem decision_threshold_field_counterexample :
    govDecide demoPolicy (Rat.divInt 7 10) false "E" (some none) (some none)
      none none none none none
    = govDecide demoPolicy (Rat.divInt 8 10) false "E" (some none) (some none)
      none none none none none := by
  decide

/-- C8 (amended): for a key string without the delimiter `::`, the ral/serve
decomposer `_parse_forecast_entity_id` fails with the malformed-key error,
while the govern script's `fe_from_entity_id` does not fail — it returns the
whole string unchanged. Both split on the first occurrence of `::`. -/
theorem key_decomposition_behavior :
    ∀ s : String, hasSubS "::" s = false →
      parseForecastEntityId s = Except.error ("Unexpected entity_id format: " ++ s
        ++ " (expected site_id::forecast_entity_id)")
      ∧ fe_from_entity_id s = s := by
  intro s h
  have hn : splitOnceL "::".data s.data = none := by
    unfold hasSubS at h
    exact Option.not_isSome_iff_eq_none.1 (by simp [h])
  constructor
  · unfold parseForecastEntityId splitOnceS
    rw [hn]
  · unfold fe_from_entity_id splitOnceS
    rw [hn]

/-- Witness for C8 at a concrete delimiter-free key. -/
theorem key_decomposition_behavior_witness :
    parseForecastEntityId "nokey" = Except.error ("Unexpected entity_id format: " ++ "nokey"
      ++ " (expected site_id::forecast_entity_id)")
    ∧ fe_from_entity_id "nokey" = "nokey" :=
  key_decomposition_behavior "nokey" (by decide)

/-- C8 counterexample: the govern script's key decomposition does not fail on
a delimiter-free key (it yields the input string), so decomposition does not
fail with a malformed-key error "in every component": the ral/serve parser
errors on the same input. -/
theorem governance_key_lenient_counterexample :
    fe_from_entity_id "nodelim" = "nodelim" ∧
    parseForecastEntityId "nodelim" = Except.error
      "Unexpected entity_id format: nodelim (expected site_id::forecast_entity_id)" :=
  ⟨rfl, rfl⟩

/-- Concrete governance table and forecast panel exercising the RAL
applicator with permission denied. -/
def ralDemoGov : List (String × Bool) := [("E", false)]

/-- One-row forecast panel for the RAL demo input. -/
def ralDemoFcst : List FcstRow := [{ entity_id := "S::E", interval_start := 0, y_pred := 5 }]

/-- The RAL output row the applicator produces for `ralDemoFcst` under
`ralDemoGov`. -/
def ralDemoOut : RalRow :=
  { entity_id := "S::E", interval_start := 0, y_pred := 5, forecast_entity_id := "E",
    allow_adjustment := false, y_pred_ral := 5, ral_applied := false, ral_mode := "none" }

/-- C2 counterexample: for a row whose entity-scope is not permitted, the
applicator does NOT leave the adjusted value absent — it sets `y_pred_ral` to
the baseline value (`y_pred`), with `applied = false` and `mode = "none"`. -/
theorem ral_adjusted_value_set_counterexample :
    ralApply ralDemoGov ralDemoFcst = Except.ok [ralDemoOut] ∧
    ralDemoOut.y_pred_ral = ralDemoOut.y_pred ∧
    ralDemoOut.ral_applied = false ∧ ralDemoOut.ral_mode = "none" :=
  ⟨rfl, rfl, rfl, rfl⟩

/-- C2 (amended): for every forecast row the applicator sets `y_pred_ral` to
the baseline `y_pred` (present, never absent) whether or not the row's
entity-scope is permitted; `applied` equals the permission lookup (missing
entity-scope defaults to false) and `mode` is "identity" when applied, else
"none". -/
theorem ral_nonpermitted_rows :
    ∀ (gov : List (String × Bool)) (fcst : List FcstRow) (out : List RalRow),
      ralApply gov fcst = Except.ok out →
      ∀ r ∈ out,
        r.y_pred_ral = r.y_pred ∧
        r.ral_applied = govLookup gov r.forecast_entity_id ∧
        r.ral_mode = (if r.ral_applied then "identity" else "none") ∧
        r.allow_adjustment = r.ral_applied := by
  intro gov fcst out h r hr
  rcases mapE_ok_mem h r hr with ⟨b, hb, hrow⟩
  unfold ralRowOf at hrow
  cases hp : parseForecastEntityId b.entity_id with
  | error e => rw [hp] at hrow; exact absurd hrow (by simp)
  | ok fe =>
    rw [hp] at hrow
    simp only [Except.ok.injEq] at hrow
    subst hrow
    exact ⟨rfl, rfl, rfl, rfl⟩

/-- Witness for C2's amended theorem at the concrete one-row input. -/
theorem ral_nonpermitted_rows_witness :
    ralDemoOut.y_pred_ral = ralDemoOut.y_pred ∧
    ralDemoOut.ral_applied = govLookup ralDemoGov ralDemoOut.forecast_entity_id ∧
    ralDemoOut.ral_mode = (if ralDemoOut.ral_applied then "identity" else "none") ∧
    ralDemoOut.allow_adjustment = ralDemoOut.ral_applied :=
  ral_nonpermitted_rows ralDemoGov ralDemoFcst [ralDemoOut] rfl ralDemoOut
    (List.mem_singleton.2 rfl)

/-- C7 (amended): the structural left-joins of the Diagnostic Aggregator
never drop a row — the merged output has at least as many rows as the
aggregated metrics table `m_agg`, and every aggregated entity-scope row
appears in the merged output. (The original claim's bound against the raw
primary metrics input table fails: the inner metric joins and the across-site
mean aggregation can shrink the row count — see the counterexample.) -/
theorem aggregator_preserves_entities :
    ∀ (cwsl : List CwslRow) (hr : List HrRow) (nslud : List NslUdRow) (dqc fpc fas : List DiagRow),
      (aggTable (mTable cwsl hr nslud)).length
        ≤ (govMergedTable cwsl hr nslud dqc fpc fas).length ∧
      ∀ a ∈ aggTable (mTable cwsl hr nslud),
        a ∈ (govMergedTable cwsl hr nslud dqc fpc fas).map fun row => row.1.1.1 := by
  intro cwsl hr nslud dqc fpc fas
  constructor
  · calc (aggTable (mTable cwsl hr nslud)).length
        ≤ (leftJoin (aggTable (mTable cwsl hr nslud)) dqc
            (fun a => a.forecast_entity_id) (fun d => d.forecast_entity_id)).length :=
          leftJoin_length_ge _ _ _ _
      _ ≤ (leftJoin (leftJoin (aggTable (mTable cwsl hr nslud)) dqc
            (fun a => a.forecast_entity_id) (fun d => d.forecast_entity_id)) fpc
            (fun p => p.1.forecast_entity_id) (fun d => d.forecast_entity_id)).length :=
          leftJoin_length_ge _ _ _ _
      _ ≤ (govMergedTable cwsl hr nslud dqc fpc fas).length := leftJoin_length_ge _ _ _ _
  · intro a ha
    rcases leftJoin_preserves (aggTable (mTable cwsl hr nslud)) dqc
      (fun x => x.forecast_entity_id) (fun d => d.forecast_entity_id) a ha with ⟨o1, h1⟩
    rcases leftJoin_preserves _ fpc
      (fun p => p.1.forecast_entity_id) (fun d => d.forecast_entity_id) (a, o1) h1 with ⟨o2, h2⟩
    rcases leftJoin_preserves _ fas
      (fun p => p.1.1.forecast_entity_id) (fun d => d.forecast_entity_id) ((a, o1), o2) h2
      with ⟨o3, h3⟩
    exact List.mem_map.2 ⟨(((a, o1), o2), o3), h3, rfl⟩

/-- cwsl input with three composite-key rows: two sites of entity-scope E and
one site of entity-scope F (F has no hr_tau row). -/
def aggDemoCwsl : List CwslRow :=
  [{ entity_id := "A::E", cwsl := 1 }, { entity_id := "B::E", cwsl := 3 },
   { entity_id := "C::F", cwsl := 5 }]

/-- hr_tau input matching only the two E-rows of `aggDemoCwsl`. -/
def aggDemoHr : List HrRow :=
  [{ entity_id := "A::E", hr_tau := 1 }, { entity_id := "B::E", hr_tau := 1 }]

/-- nsl_ud input matching only the two E-rows of `aggDemoCwsl`. -/
def aggDemoNslud : List NslUdRow :=
  [{ entity_id := "A::E", nsl := 0, ud := 0 }, { entity_id := "B::E", nsl := 0, ud := 0 }]

/-- The single aggregated row the aggregator produces from the demo inputs. -/
def aggDemoAgg : AggRow :=
  { forecast_entity_id := "E", cwsl := meanQ [1, 3], hr_tau := meanQ [1, 1],
    nsl := meanQ [0, 0], ud := meanQ [0, 0] }

/-- C7 counterexample: the aggregator output can have strictly fewer rows
than its primary (cwsl) metrics input table — 3 input rows produce 1 output
row (entity F is dropped by the inner hr_tau join, and the two sites of E
collapse into one entity-scope row). -/
theorem aggregator_rowcount_counterexample :
    (govMergedTable aggDemoCwsl aggDemoHr aggDemoNslud [] [] []).length = 1 ∧
    aggDemoCwsl.length = 3 :=
  ⟨rfl, rfl⟩

/-- Witness for C7's amended theorem at the concrete demo input. -/
theorem aggregator_preserves_entities_witness :
    (aggTable (mTable aggDemoCwsl aggDemoHr aggDemoNslud)).length
      ≤ (govMergedTable aggDemoCwsl aggDemoHr aggDemoNslud [] [] []).length ∧
    aggDemoAgg ∈ (govMergedTable aggDemoCwsl aggDemoHr aggDemoNslud [] [] []).map
      fun row => row.1.1.1 := by
  refine ⟨(aggregator_preserves_entities aggDemoCwsl aggDemoHr aggDemoNslud [] [] []).1,
    (aggregator_preserves_entities aggDemoCwsl aggDemoHr aggDemoNslud [] [] []).2 aggDemoAgg ?_⟩
  show aggDemoAgg ∈ [aggDemoAgg]
  exact List.mem_singleton.2 rfl

theorem serveRowPure_source (allow : Bool) (fe : String) (b : FcstRow) (m : Option RalRow) :
    ((serveRowPure allow fe b m).served_source = "ral"
      ↔ ((serveRowPure allow fe b m).allow_adjustment = true
          ∧ (serveRowPure allow fe b m).y_pred_ral.isSome = true)) ∧
    ((serveRowPure allow fe b m).served_source ≠ "ral" →
      (serveRowPure allow fe b m).served_source = "baseline"
        ∧ (serveRowPure allow fe b m).y_served = (serveRowPure allow fe b m).y_pred) := by
  cases allow <;> cases m <;> simp [serveRowPure]

/-- C1: for every output row of the Serving Selector, `served_source = "ral"`
exactly when the row's entity-scope permission (`allow_adjustment`, looked up
in the governance decisions with a closed default) is true AND the adjusted
value `y_pred_ral` is present; in every other case `served_source =
"baseline"` and `y_served` equals `y_pred` exactly. -/
theorem serving_selector_consistency :
    ∀ (gov : List (String × Bool)) (base : List FcstRow) (ral : List RalRow)
      (out : List ServedRow),
      serve gov base ral = Except.ok out →
      ∀ s ∈ out,
        (s.served_source = "ral"
          ↔ (s.allow_adjustment = true ∧ s.y_pred_ral.isSome = true)) ∧
        (s.served_source ≠ "ral" →
          s.served_source = "baseline" ∧ s.y_served = s.y_pred) ∧
        s.allow_adjustment = govLookup gov s.forecast_entity_id := by
  intro gov base ral out h s hs
  unfold serve at h
  split at h
  · exact absurd h (by simp)
  · split at h
    · exact absurd h (by simp)
    · cases hm : mapE (serveRowOf gov ral) base with
      | error e => rw [hm] at h; exact absurd h (by simp)
      | ok rows =>
        rw [hm] at h
        simp only [Except.ok.injEq] at h
        subst h
        rcases mapE_ok_mem hm s (mem_sortBy.1 hs) with ⟨b, hb, hrow⟩
        unfold serveRowOf at hrow
        cases hp : parseForecastEntityId b.entity_id with
        | error e => rw [hp] at hrow; exact absurd hrow (by simp)
        | ok fe =>
          rw [hp] at hrow
          simp only [Except.ok.injEq] at hrow
          subst hrow
          exact ⟨(serveRowPure_source (govLookup gov fe) fe b _).1,
            (serveRowPure_source (govLookup gov fe) fe b _).2, rfl⟩

/-- Governance table granting permission to entity-scope E. -/
def srvDemoGov : List (String × Bool) := [("E", true)]

/-- One-row baseline panel for the serving demo input. -/
def srvDemoBase : List FcstRow := [{ entity_id := "S::E", interval_start := 0, y_pred := 5 }]

/-- The RAL row the applicator produces for `srvDemoBase` under `srvDemoGov`. -/
def srvDemoRal : RalRow :=
  { entity_id := "S::E", interval_start := 0, y_pred := 5, forecast_entity_id := "E",
    allow_adjustment := true, y_pred_ral := 5, ral_applied := true, ral_mode := "identity" }

/-- The served row the selector produces from `srvDemoBase` and `srvDemoRal`. -/
def srvDemoServed : ServedRow :=
  { entity_id := "S::E", forecast_entity_id := "E", interval_start := 0, y_served := 5,
    served_source := "ral", y_pred := 5, y_pred_ral := some 5, ral_mode := some "identity",
    ral_applied := some true, allow_adjustment := true }

/-- Witness for C1 at a concrete one-row pipeline run. -/
theorem serving_selector_consistency_witness :
    (srvDemoServed.served_source = "ral"
      ↔ (srvDemoServed.allow_adjustment = true ∧ srvDemoServed.y_pred_ral.isSome = true)) ∧
    (srvDemoServed.served_source ≠ "ral" →
      srvDemoServed.served_source = "baseline"
        ∧ srvDemoServed.y_served = srvDemoServed.y_pred) ∧
    srvDemoServed.allow_adjustment = govLookup srvDemoGov srvDemoServed.forecast_entity_id :=
  serving_selector_consistency srvDemoGov srvDemoBase [srvDemoRal] [srvDemoServed] rfl
    srvDemoServed (List.mem_singleton.2 rfl)

/-- C10: in the RAL output every row's `y_pred_ral` is present and equals the
baseline `y_pred` regardless of permission; consequently, when the serving
selector consumes that output for the same baseline panel, the presence test
never excludes a row on its own and the serving choice reduces to the
`allow_adjustment` flag alone. -/
theorem ral_presence_serving_reduction :
    ∀ (gov : List (String × Bool)) (base : List FcstRow) (ralOut : List RalRow)
      (served : List ServedRow),
      ralApply gov base = Except.ok ralOut →
      serve gov base ralOut = Except.ok served →
      (∀ r ∈ ralOut, r.y_pred_ral = r.y_pred) ∧
      (∀ s ∈ served, s.y_pred_ral.isSome = true ∧
        s.served_source = (if s.allow_adjustment then "ral" else "baseline")) := by
  intro gov base ralOut served hral hserve
  constructor
  · intro r hr
    rcases mapE_ok_mem hral r hr with ⟨b, hb, hrow⟩
    unfold ralRowOf at hrow
    cases hp : parseForecastEntityId b.entity_id with
    | error e => rw [hp] at hrow; exact absurd hrow (by simp)
    | ok fe =>
      rw [hp] at hrow
      simp only [Except.ok.injEq] at hrow
      subst hrow
      rfl
  · intro s hs
    unfold serve at hserve
    split at hserve
    · exact absurd hserve (by simp)
    · split at hserve
      · exact absurd hserve (by simp)
      · cases hm : mapE (serveRowOf gov ralOut) base with
        | error e => rw [hm] at hserve; exact absurd hserve (by simp)
        | ok rows =>
          rw [hm] at hserve
          simp only [Except.ok.injEq] at hserve
          subst hserve
          rcases mapE_ok_mem hm s (mem_sortBy.1 hs) with ⟨b, hb, hrow⟩
          rcases mapE_ok_forward hral b hb with ⟨r, hrmem, hrrow⟩
          unfold ralRowOf at hrrow
          cases hp : parseForecastEntityId b.entity_id with
          | error e => rw [hp] at hrrow; exact absurd hrrow (by simp)
          | ok fe =>
            rw [hp] at hrrow
            simp only [Except.ok.injEq] at hrrow
            unfold serveRowOf at hrow
            rw [hp] at hrow
            simp only [Except.ok.injEq] at hrow
            have hrfil : r ∈ ralOut.filter fun x =>
                x.entity_id = b.entity_id && x.interval_start = b.interval_start := by
              refine List.mem_filter.2 ⟨hrmem, ?_⟩
              rw [← hrrow]
              simp [ralRowPure]
            cases hf : ralOut.filter fun x =>
                x.entity_id = b.entity_id && x.interval_start = b.interval_start with
            | nil => rw [hf] at hrfil; exact absurd hrfil (List.not_mem_nil r)
            | cons x xs =>
              rw [hf] at hrow
              subst hrow
              constructor
              · rfl
              · show (serveRowPure (govLookup gov fe) fe b (some x)).served_source
                  = if (serveRowPure (govLookup gov fe) fe b (some x)).allow_adjustment
                    then "ral" else "baseline"
                cases hgl : govLookup gov fe <;> simp [serveRowPure, hgl]

/-- Witness for C10 at a concrete one-row pipeline run. -/
theorem ral_presence_serving_reduction_witness :
    srvDemoRal.y_pred_ral = srvDemoRal.y_pred ∧
    srvDemoServed.y_pred_ral.isSome = true ∧
    srvDemoServed.served_source
      = (if srvDemoServed.allow_adjustment then "ral" else "baseline") := by
  have h := ral_presence_serving_reduction srvDemoGov srvDemoBase [srvDemoRal]
    [srvDemoServed] rfl rfl
  exact ⟨h.1 srvDemoRal (List.mem_singleton.2 rfl),
    (h.2 srvDemoServed (List.mem_singleton.2 rfl)).1,
    (h.2 srvDemoServed (List.mem_singleton.2 rfl)).2⟩

end EB
